import Mathlib

/-!
# Verification of the zrnt chain-index core (`eth2/chain/chain.go`)

Shallow embedding of the hot/cold chain router: the `BlockSlotKey`
encoding, the `HotColdChain` query routing and ancestry dispatch, the
finalization sink installed by `NewHotColdChain`, and the composed
`FullChainIter`. Go machine integers are modelled as `Nat` with explicit
`% 2^64` where the 64-bit width matters; Go `(value, error)` returns are
modelled as `Except String`.
-/

namespace ZrntChain

/-- A 32-byte root (`beacon.Root`), modelled as a function from byte
index to byte value. -/
structure Root32 where
  bytes : Fin 32 → Fin 256
deriving DecidableEq

/-- `Slot` is a Go `uint64`; we model values as `Nat` and apply
`% 2 ^ 64` wherever the code converts through the 64-bit type. -/
abbrev Slot := Nat

/-- `BlockSlotKey`: composite (Slot, Root) key, from `chain.go`. -/
structure BlockSlotKey where
  Slot : Nat
  Root : Root32
deriving DecidableEq

/-- Byte `j` of the little-endian 64-bit encoding of `n`, as written by
Go's `binary.LittleEndian.PutUint64`. -/
def leUint64Byte (n : Nat) (j : Nat) : Nat :=
  n % 2 ^ 64 / 256 ^ j % 256

/-- `BlockSlotKey.Bytes` from `chain.go`: a 40-byte array whose bytes
0..31 copy the root and whose bytes 32..39 hold the slot as a
little-endian `uint64`. -/
def BlockSlotKey.Bytes (key : BlockSlotKey) : Fin 40 → Nat :=
  fun i =>
    if h : i.val < 32 then (key.Root.bytes ⟨i.val, h⟩).val
    else leUint64Byte key.Slot (i.val - 32)

/-- Recover a number below `256 ^ k` from its first `k` little-endian
base-256 digits. -/
theorem le_digits_inj (k : Nat) : ∀ n₁ n₂ : Nat, n₁ < 256 ^ k → n₂ < 256 ^ k →
    (∀ j, j < k → n₁ / 256 ^ j % 256 = n₂ / 256 ^ j % 256) → n₁ = n₂ := by
  induction k with
  | zero =>
    intro n₁ n₂ h₁ h₂ _
    simp only [pow_zero, Nat.lt_one_iff] at h₁ h₂
    rw [h₁, h₂]
  | succ k ih =>
    intro n₁ n₂ h₁ h₂ hd
    have hmod : n₁ % 256 = n₂ % 256 := by
      have := hd 0 (Nat.succ_pos k)
      simpa using this
    have hdiv : n₁ / 256 = n₂ / 256 := by
      apply ih
      · exact Nat.div_lt_of_lt_mul (by rw [pow_succ] at h₁; omega)
      · exact Nat.div_lt_of_lt_mul (by rw [pow_succ] at h₂; omega)
      · intro j hj
        have := hd (j + 1) (Nat.succ_lt_succ hj)
        rw [pow_succ'] at this
        rw [Nat.div_div_eq_div_mul, Nat.div_div_eq_div_mul]
        exact this
    omega

/-- A concrete all-zero root, used as evaluation input. -/
def zeroRoot : Root32 := ⟨fun _ => 0⟩

/-- A concrete root whose bytes are all one, used as evaluation input. -/
def oneRoot : Root32 := ⟨fun _ => 1⟩

/-- C7: `BlockSlotKey.Bytes` yields 40 bytes: bytes 0..31 are the root's
bytes and bytes 32..39 are the slot as a little-endian 64-bit integer. -/
theorem blockSlotKey_bytes_layout (key : BlockSlotKey) :
    (∀ i : Fin 32, key.Bytes ⟨i.val, by have := i.isLt; omega⟩ = (key.Root.bytes i).val) ∧
    (∀ j : Fin 8, key.Bytes ⟨32 + j.val, by have := j.isLt; omega⟩ =
      leUint64Byte key.Slot j.val) := by
  constructor
  · rintro ⟨iv, hiv⟩
    simp [BlockSlotKey.Bytes, hiv]
  · rintro ⟨jv, hjv⟩
    have h32 : ¬ (32 + jv < 32) := by omega
    simp only [BlockSlotKey.Bytes, h32, dite_false]
    congr 1
    omega

/-- C10: the 40-byte encoding is injective on keys representable in the
Go types (roots are 32 bytes, slots are `uint64`): keys that differ in
slot or root have different encodings. -/
theorem blockSlotKey_bytes_injective (k₁ k₂ : BlockSlotKey)
    (h₁ : k₁.Slot < 2 ^ 64) (h₂ : k₂.Slot < 2 ^ 64) (hne : k₁ ≠ k₂) :
    k₁.Bytes ≠ k₂.Bytes := by
  intro heq
  apply hne
  rcases k₁ with ⟨s₁, ⟨r₁⟩⟩
  rcases k₂ with ⟨s₂, ⟨r₂⟩⟩
  have hroot : r₁ = r₂ := by
    funext i
    rcases i with ⟨iv, hiv⟩
    have hb := congrFun heq ⟨iv, by omega⟩
    simp [BlockSlotKey.Bytes, hiv] at hb
    exact Fin.ext hb
  have hslot : s₁ = s₂ := by
    have hdig : ∀ j, j < 8 → s₁ % 2 ^ 64 / 256 ^ j % 256 = s₂ % 2 ^ 64 / 256 ^ j % 256 := by
      intro j hj
      have hb := congrFun heq ⟨32 + j, by omega⟩
      have h32 : ¬ (32 + j < 32) := by omega
      simp only [BlockSlotKey.Bytes, h32, dite_false, leUint64Byte] at hb
      simpa using hb
    have hpow : (2 : Nat) ^ 64 = 256 ^ 8 := by norm_num
    have hm : s₁ % 2 ^ 64 = s₂ % 2 ^ 64 := by
      apply le_digits_inj 8
      · rw [← hpow]; exact Nat.mod_lt _ (by norm_num)
      · rw [← hpow]; exact Nat.mod_lt _ (by norm_num)
      · exact hdig
    rwa [Nat.mod_eq_of_lt h₁, Nat.mod_eq_of_lt h₂] at hm
  rw [hroot, hslot]

/-- Witness for C10: two concrete keys differing in slot have different
encodings. -/
theorem blockSlotKey_bytes_injective_witness :
    BlockSlotKey.Bytes ⟨3, zeroRoot⟩ ≠ BlockSlotKey.Bytes ⟨4, zeroRoot⟩ :=
  blockSlotKey_bytes_injective ⟨3, zeroRoot⟩ ⟨4, zeroRoot⟩
    (by norm_num) (by norm_num) (by decide)

/-- Value-level model of the `ChainEntry` interface: one chain position
(slot, block root, parent root, empty flag, state root). The lazily
computed `EpochsContext`/`State` accessors are external collaborators and
are not part of the routing logic. -/
structure ChainEntry where
  slot : Nat
  blockRoot : Root32
  parentRoot : Root32
  isEmpty : Bool
  stateRoot : Root32
deriving DecidableEq

/-- `beacon.Checkpoint`, as used by `HotChain.Finalized()`. -/
structure Checkpoint where
  Epoch : Nat
  Root : Root32
deriving DecidableEq

/-- Model of the `HotChain` capability surface the router consumes:
lookups return `Except String` like Go's `(entry, error)` pairs. -/
structure HotChain where
  ByStateRoot : Root32 → Except String ChainEntry
  ByBlockRoot : Root32 → Except String ChainEntry
  Closest : Root32 → Nat → Except String ChainEntry
  BySlot : Nat → Except String ChainEntry
  IsAncestor : Root32 → Root32 → Bool × Bool
  Finalized : Checkpoint

/-- Model of the `ColdChain` capability surface the router consumes. -/
structure ColdChain where
  ByStateRoot : Root32 → Except String ChainEntry
  ByBlockRoot : Root32 → Except String ChainEntry
  Closest : Root32 → Nat → Except String ChainEntry
  BySlot : Nat → Except String ChainEntry
  IsAncestor : Root32 → Root32 → Bool × Bool

/-- `HotColdChain` from `chain.go`: the router holding the two regions. -/
structure HotColdChain where
  HotChain : HotChain
  ColdChain : ColdChain

/-- The combined error message built by the router when both regions
miss (`fmt.Errorf` in `chain.go`). -/
def combinedChainErr (hotErr coldErr : String) : String :=
  "could not find chain entry in hot or cold chain. " ++
    "Hot: " ++ hotErr ++ ", Cold: " ++ coldErr

/-- `s` contains `sub` as a substring. -/
def containsStr (s sub : String) : Prop :=
  ∃ a b : String, s = a ++ sub ++ b

/-- `HotColdChain.ByStateRoot` from `chain.go`: hot first, cold on miss,
combined error when both miss. -/
def HotColdChain.ByStateRoot (hc : HotColdChain) (root : Root32) : Except String ChainEntry :=
  match hc.HotChain.ByStateRoot root with
  | .ok hotEntry => .ok hotEntry
  | .error hotErr =>
    match hc.ColdChain.ByStateRoot root with
    | .ok coldEntry => .ok coldEntry
    | .error coldErr => .error (combinedChainErr hotErr coldErr)

/-- `HotColdChain.ByBlockRoot` from `chain.go`. -/
def HotColdChain.ByBlockRoot (hc : HotColdChain) (root : Root32) : Except String ChainEntry :=
  match hc.HotChain.ByBlockRoot root with
  | .ok hotEntry => .ok hotEntry
  | .error hotErr =>
    match hc.ColdChain.ByBlockRoot root with
    | .ok coldEntry => .ok coldEntry
    | .error coldErr => .error (combinedChainErr hotErr coldErr)

/-- `HotColdChain.Closest` from `chain.go`. -/
def HotColdChain.Closest (hc : HotColdChain) (fromBlockRoot : Root32) (toSlot : Nat) :
    Except String ChainEntry :=
  match hc.HotChain.Closest fromBlockRoot toSlot with
  | .ok hotEntry => .ok hotEntry
  | .error hotErr =>
    match hc.ColdChain.Closest fromBlockRoot toSlot with
    | .ok coldEntry => .ok coldEntry
    | .error coldErr => .error (combinedChainErr hotErr coldErr)

/-- `HotColdChain.BySlot` from `chain.go`. -/
def HotColdChain.BySlot (hc : HotColdChain) (slot : Nat) : Except String ChainEntry :=
  match hc.HotChain.BySlot slot with
  | .ok hotEntry => .ok hotEntry
  | .error hotErr =>
    match hc.ColdChain.BySlot slot with
    | .ok coldEntry => .ok coldEntry
    | .error coldErr => .error (combinedChainErr hotErr coldErr)

/-- `HotColdChain.IsAncestor` from `chain.go`: the four-case dispatch. -/
def HotColdChain.IsAncestor (hc : HotColdChain) (root ofRoot : Root32) : Bool × Bool :=
  if root = ofRoot then (false, false)
  else
    match hc.ColdChain.ByBlockRoot root with
    | .ok _ => hc.ColdChain.IsAncestor root ofRoot
    | .error _ =>
      match hc.ColdChain.ByBlockRoot ofRoot with
      | .ok _ => hc.HotChain.IsAncestor root hc.HotChain.Finalized.Root
      | .error _ => hc.HotChain.IsAncestor root ofRoot

/-- Which branch of `HotColdChain.IsAncestor` resolves a query. -/
inductive AncestryBranch where
  | selfEqual
  | coldDelegate
  | anchorBridge
  | hotDelegate
deriving DecidableEq

/-- The branch of `HotColdChain.IsAncestor`'s dispatch taken for a pair
of roots, following the control flow of `chain.go` lines 163-182. -/
def HotColdChain.isAncestorBranch (hc : HotColdChain) (root ofRoot : Root32) : AncestryBranch :=
  if root = ofRoot then .selfEqual
  else
    match hc.ColdChain.ByBlockRoot root with
    | .ok _ => .coldDelegate
    | .error _ =>
      match hc.ColdChain.ByBlockRoot ofRoot with
      | .ok _ => .anchorBridge
      | .error _ => .hotDelegate

/-- The finalization sink closure installed by `NewHotColdChain`
(`chain.go` lines 101-107), with the cold chain's state passed
explicitly: a canonical entry is forwarded to `OnFinalizedEntry`, a
non-canonical entry is dropped with a nil (ok) result. -/
def hotColdFinalizationSink {HotEntry ColdSt : Type}
    (onFinalizedEntry : ColdSt → HotEntry → Except String ColdSt)
    (cold : ColdSt) (entry : HotEntry) (canonical : Bool) : Except String ColdSt :=
  if canonical then onFinalizedEntry cold entry else .ok cold

/-- Model of the `ChainIter` interface: `Start` inclusive, `End`
exclusive, and `Entry` which may return `(nil, nil)` — an ok `none`. -/
structure ChainIter where
  Start : Nat
  End : Nat
  Entry : Nat → Except String (Option ChainEntry)

/-- `FullChainIter` from `chain.go`: the stitched iterator. -/
structure FullChainIter where
  HotIter : ChainIter
  ColdIter : ChainIter

/-- `FullChainIter.Start` from `chain.go`. -/
def FullChainIter.Start (fi : FullChainIter) : Nat :=
  fi.ColdIter.Start

/-- `FullChainIter.End` from `chain.go`. -/
def FullChainIter.End (fi : FullChainIter) : Nat :=
  fi.HotIter.End

/-- `FullChainIter.Entry` from `chain.go`: route to cold strictly below
the cold iterator's `End`, else to hot. -/
def FullChainIter.Entry (fi : FullChainIter) (slot : Nat) : Except String (Option ChainEntry) :=
  if slot < fi.ColdIter.End then fi.ColdIter.Entry slot
  else fi.HotIter.Entry slot

instance {ε α : Type} [DecidableEq ε] [DecidableEq α] : DecidableEq (Except ε α) :=
  fun x y =>
    match x, y with
    | .ok a, .ok b =>
      if h : a = b then .isTrue (by rw [h]) else .isFalse (fun hc => h (Except.ok.inj hc))
    | .ok _, .error _ => .isFalse (fun hc => Except.noConfusion hc)
    | .error _, .ok _ => .isFalse (fun hc => Except.noConfusion hc)
    | .error e, .error f =>
      if h : e = f then .isTrue (by rw [h]) else .isFalse (fun hc => h (Except.error.inj hc))

/-- A root whose first byte is `n % 256` and whose other bytes are zero,
used to build concrete evaluation inputs. -/
def natRoot (n : Nat) : Root32 :=
  ⟨fun i => if i.val = 0 then ⟨n % 256, Nat.mod_lt _ (by norm_num)⟩ else 0⟩

/-- Block root of the concrete cold-only entry. -/
def rootA : Root32 := natRoot 1

/-- Block root of the concrete anchor entry. -/
def anchorRoot : Root32 := natRoot 2

/-- Block root of the concrete hot-only entry. -/
def rootB : Root32 := natRoot 3

/-- A root unknown to both concrete regions. -/
def rootX : Root32 := natRoot 9

/-- Concrete cold-only entry at slot 0. -/
def entryA : ChainEntry := ⟨0, rootA, natRoot 0, false, natRoot 11⟩

/-- Concrete anchor entry at slot 1; its parent is `entryA`. -/
def entryAnchor : ChainEntry := ⟨1, anchorRoot, rootA, false, natRoot 12⟩

/-- Concrete hot-only entry at slot 2; its parent is the anchor. -/
def entryB : ChainEntry := ⟨2, rootB, anchorRoot, false, natRoot 13⟩

/-- Concrete cold-region fixture holding `entryA` and `entryAnchor`
(linear, per spec section 4.4), used to evaluate the router. -/
def coldEx : ColdChain where
  ByStateRoot r :=
    if r = entryA.stateRoot then .ok entryA
    else if r = entryAnchor.stateRoot then .ok entryAnchor
    else .error "cold: state root not found"
  ByBlockRoot r :=
    if r = rootA then .ok entryA
    else if r = anchorRoot then .ok entryAnchor
    else .error "cold: block root not found"
  Closest r s :=
    if r = rootA then .ok entryA
    else if r = anchorRoot then (if 1 ≤ s then .ok entryAnchor else .error "cold: no candidate")
    else .error "cold: unknown block root"
  BySlot s :=
    if s = 0 then .ok entryA
    else if s = 1 then .ok entryAnchor
    else .error "cold: no entry at slot"
  IsAncestor root ofRoot :=
    if root = anchorRoot ∧ ofRoot = rootA then (false, true)
    else if (root = rootA ∨ root = anchorRoot) ∧ (ofRoot = rootA ∨ ofRoot = anchorRoot) then
      (false, false)
    else (true, false)

/-- Concrete hot-region fixture anchored at `entryAnchor` with the
single child `entryB` (tree per spec section 4.3), used to evaluate the
router. -/
def hotEx : HotChain where
  ByStateRoot r :=
    if r = entryAnchor.stateRoot then .ok entryAnchor
    else if r = entryB.stateRoot then .ok entryB
    else .error "hot: state root not found"
  ByBlockRoot r :=
    if r = anchorRoot then .ok entryAnchor
    else if r = rootB then .ok entryB
    else .error "hot: block root not found"
  Closest r s :=
    if r = anchorRoot then (if 2 ≤ s then .ok entryB else .ok entryAnchor)
    else if r = rootB then .ok entryB
    else .error "hot: unknown block root"
  BySlot s :=
    if s = 1 then .ok entryAnchor
    else if s = 2 then .ok entryB
    else .error "hot: no entry at slot"
  IsAncestor root ofRoot :=
    if root = rootB ∧ ofRoot = anchorRoot then (false, true)
    else if (root = rootB ∨ root = anchorRoot) ∧ (ofRoot = rootB ∨ ofRoot = anchorRoot) then
      (false, false)
    else (true, false)
  Finalized := ⟨0, anchorRoot⟩

/-- Concrete router over the two fixtures. -/
def hcEx : HotColdChain := ⟨hotEx, coldEx⟩

/-- A second cold-region fixture that answers every lookup, used to
check that a hot hit never consults the cold region. -/
def coldEx2 : ColdChain where
  ByStateRoot _ := .ok entryA
  ByBlockRoot _ := .ok entryA
  Closest _ _ := .ok entryA
  BySlot _ := .ok entryA
  IsAncestor _ _ := (false, false)

/-- C1: `HotColdChain.IsAncestor` implements the four-case dispatch of
spec section 4.2: self-query yields `(false, false)`; a root resolvable
in the cold chain delegates to the cold chain; a root not resolvable in
the cold chain while `ofRoot` is delegates to the hot chain against the
finalized anchor root; otherwise it delegates to the hot chain. -/
theorem hotColdChain_isAncestor_dispatch (hc : HotColdChain) (root ofRoot : Root32) :
    hc.IsAncestor root root = (false, false) ∧
    (root ≠ ofRoot → ∀ e, hc.ColdChain.ByBlockRoot root = .ok e →
      hc.IsAncestor root ofRoot = hc.ColdChain.IsAncestor root ofRoot) ∧
    (root ≠ ofRoot → ∀ err e, hc.ColdChain.ByBlockRoot root = .error err →
      hc.ColdChain.ByBlockRoot ofRoot = .ok e →
      hc.IsAncestor root ofRoot = hc.HotChain.IsAncestor root hc.HotChain.Finalized.Root) ∧
    (root ≠ ofRoot → ∀ errR errO, hc.ColdChain.ByBlockRoot root = .error errR →
      hc.ColdChain.ByBlockRoot ofRoot = .error errO →
      hc.IsAncestor root ofRoot = hc.HotChain.IsAncestor root ofRoot) := by
  refine ⟨?_, ?_, ?_, ?_⟩
  · simp [HotColdChain.IsAncestor]
  · intro hne e he
    simp [HotColdChain.IsAncestor, hne, he]
  · intro hne err e her heo
    simp [HotColdChain.IsAncestor, hne, her, heo]
  · intro hne errR errO her heo
    simp [HotColdChain.IsAncestor, hne, her, heo]

/-- Witness for C1: each of the four dispatch cases evaluated on the
concrete router. -/
theorem hotColdChain_isAncestor_dispatch_witness :
    hcEx.IsAncestor rootA rootA = (false, false) ∧
    hcEx.IsAncestor rootA rootB = coldEx.IsAncestor rootA rootB ∧
    hcEx.IsAncestor rootB rootA = hotEx.IsAncestor rootB hotEx.Finalized.Root ∧
    hcEx.IsAncestor rootB rootX = hotEx.IsAncestor rootB rootX :=
  ⟨(hotColdChain_isAncestor_dispatch hcEx rootA rootA).1,
   (hotColdChain_isAncestor_dispatch hcEx rootA rootB).2.1 (by decide) entryA (by decide),
   (hotColdChain_isAncestor_dispatch hcEx rootB rootA).2.2.1 (by decide)
     "cold: block root not found" entryA (by decide) (by decide),
   (hotColdChain_isAncestor_dispatch hcEx rootB rootX).2.2.2 (by decide)
     "cold: block root not found" "cold: block root not found" (by decide) (by decide)⟩

/-- The hot-first / cold-fallback / combined-error contract of one
router lookup. -/
def RoutedLookup {α : Type} (hotL coldL routed : α → Except String ChainEntry) : Prop :=
  ∀ x : α,
    (∀ e, hotL x = .ok e → routed x = .ok e) ∧
    (∀ hotErr e, hotL x = .error hotErr → coldL x = .ok e → routed x = .ok e) ∧
    (∀ hotErr coldErr, hotL x = .error hotErr → coldL x = .error coldErr →
      routed x = .error (combinedChainErr hotErr coldErr) ∧
      containsStr (combinedChainErr hotErr coldErr) hotErr ∧
      containsStr (combinedChainErr hotErr coldErr) coldErr)

theorem routedLookup_of_eq {α : Type}
    (hotL coldL routed : α → Except String ChainEntry)
    (heq : ∀ x, routed x =
      match hotL x with
      | .ok hotEntry => .ok hotEntry
      | .error hotErr =>
        match coldL x with
        | .ok coldEntry => .ok coldEntry
        | .error coldErr => .error (combinedChainErr hotErr coldErr)) :
    RoutedLookup hotL coldL routed := by
  intro x
  refine ⟨?_, ?_, ?_⟩
  · intro e he
    rw [heq, he]
  · intro hotErr e hh hcold
    rw [heq, hh, hcold]
  · intro hotErr coldErr hh hcold
    refine ⟨by rw [heq, hh, hcold],
      ⟨"could not find chain entry in hot or cold chain. " ++ "Hot: ",
        ", Cold: " ++ coldErr, ?_⟩,
      ⟨"could not find chain entry in hot or cold chain. " ++ "Hot: " ++ hotErr ++ ", Cold: ",
        "", ?_⟩⟩
    · simp [combinedChainErr, String.append_assoc]
    · simp [combinedChainErr, String.append_assoc, String.append_empty]

/-- C2: each router lookup returns the hot entry when the hot region
answers, falls back to the cold entry on a hot miss, and on a double
miss returns a single error whose message contains both underlying
error messages. -/
theorem hotColdChain_lookup_fallback (hc : HotColdChain) :
    RoutedLookup hc.HotChain.ByStateRoot hc.ColdChain.ByStateRoot hc.ByStateRoot ∧
    RoutedLookup hc.HotChain.ByBlockRoot hc.ColdChain.ByBlockRoot hc.ByBlockRoot ∧
    RoutedLookup (fun p : Root32 × Nat => hc.HotChain.Closest p.1 p.2)
      (fun p => hc.ColdChain.Closest p.1 p.2) (fun p => hc.Closest p.1 p.2) ∧
    RoutedLookup hc.HotChain.BySlot hc.ColdChain.BySlot hc.BySlot :=
  ⟨routedLookup_of_eq _ _ _ (fun _ => rfl),
   routedLookup_of_eq _ _ _ (fun _ => rfl),
   routedLookup_of_eq _ _ _ (fun _ => rfl),
   routedLookup_of_eq _ _ _ (fun _ => rfl)⟩

/-- Witness for C2: on the concrete router, a root unknown to both
regions yields the combined error containing both messages. -/
theorem hotColdChain_lookup_fallback_witness :
    hcEx.ByStateRoot rootX =
      .error (combinedChainErr "hot: state root not found" "cold: state root not found") ∧
    containsStr (combinedChainErr "hot: state root not found" "cold: state root not found")
      "hot: state root not found" ∧
    containsStr (combinedChainErr "hot: state root not found" "cold: state root not found")
      "cold: state root not found" :=
  ((hotColdChain_lookup_fallback hcEx).1 rootX).2.2
    "hot: state root not found" "cold: state root not found" (by decide) (by decide)

theorem hotPriority_of_eq {α : Type}
    (hotL coldL coldL' routed routed' : α → Except String ChainEntry)
    (heq : ∀ x, routed x =
      match hotL x with
      | .ok hotEntry => .ok hotEntry
      | .error hotErr =>
        match coldL x with
        | .ok coldEntry => .ok coldEntry
        | .error coldErr => .error (combinedChainErr hotErr coldErr))
    (heq' : ∀ x, routed' x =
      match hotL x with
      | .ok hotEntry => .ok hotEntry
      | .error hotErr =>
        match coldL' x with
        | .ok coldEntry => .ok coldEntry
        | .error coldErr => .error (combinedChainErr hotErr coldErr)) :
    (∀ x e, hotL x = .ok e → routed x = .ok e ∧ routed x = routed' x) ∧
    (∀ x e, routed x = .ok e →
      hotL x = .ok e ∨ ∃ hotErr, hotL x = .error hotErr ∧ coldL x = .ok e) := by
  constructor
  · intro x e he
    constructor
    · rw [heq, he]
    · rw [heq, heq', he]
  · intro x e he
    rw [heq] at he
    cases hh : hotL x with
    | ok e' =>
      left
      rw [hh] at he
      exact he
    | error hotErr =>
      right
      rw [hh] at he
      cases hcold : coldL x with
      | ok e'' =>
        rw [hcold] at he
        exact ⟨hotErr, rfl, he⟩
      | error coldErr =>
        rw [hcold] at he
        exact absurd he (fun hc => Except.noConfusion hc)

/-- C9: for each router lookup, a hot-region hit is returned as-is and
the result does not depend on the cold region at all; a cold entry can
only be returned after the hot lookup failed. -/
theorem hotColdChain_hot_shadows_cold (hot : HotChain) (cold cold' : ColdChain) :
    ((∀ root e, hot.ByStateRoot root = .ok e →
        HotColdChain.ByStateRoot ⟨hot, cold⟩ root = .ok e ∧
        HotColdChain.ByStateRoot ⟨hot, cold⟩ root = HotColdChain.ByStateRoot ⟨hot, cold'⟩ root) ∧
     (∀ root e, HotColdChain.ByStateRoot ⟨hot, cold⟩ root = .ok e →
        hot.ByStateRoot root = .ok e ∨
        ∃ hotErr, hot.ByStateRoot root = .error hotErr ∧ cold.ByStateRoot root = .ok e)) ∧
    ((∀ root e, hot.ByBlockRoot root = .ok e →
        HotColdChain.ByBlockRoot ⟨hot, cold⟩ root = .ok e ∧
        HotColdChain.ByBlockRoot ⟨hot, cold⟩ root = HotColdChain.ByBlockRoot ⟨hot, cold'⟩ root) ∧
     (∀ root e, HotColdChain.ByBlockRoot ⟨hot, cold⟩ root = .ok e →
        hot.ByBlockRoot root = .ok e ∨
        ∃ hotErr, hot.ByBlockRoot root = .error hotErr ∧ cold.ByBlockRoot root = .ok e)) ∧
    ((∀ p : Root32 × Nat, ∀ e, hot.Closest p.1 p.2 = .ok e →
        HotColdChain.Closest ⟨hot, cold⟩ p.1 p.2 = .ok e ∧
        HotColdChain.Closest ⟨hot, cold⟩ p.1 p.2 = HotColdChain.Closest ⟨hot, cold'⟩ p.1 p.2) ∧
     (∀ p : Root32 × Nat, ∀ e, HotColdChain.Closest ⟨hot, cold⟩ p.1 p.2 = .ok e →
        hot.Closest p.1 p.2 = .ok e ∨
        ∃ hotErr, hot.Closest p.1 p.2 = .error hotErr ∧ cold.Closest p.1 p.2 = .ok e)) ∧
    ((∀ slot e, hot.BySlot slot = .ok e →
        HotColdChain.BySlot ⟨hot, cold⟩ slot = .ok e ∧
        HotColdChain.BySlot ⟨hot, cold⟩ slot = HotColdChain.BySlot ⟨hot, cold'⟩ slot) ∧
     (∀ slot e, HotColdChain.BySlot ⟨hot, cold⟩ slot = .ok e →
        hot.BySlot slot = .ok e ∨
        ∃ hotErr, hot.BySlot slot = .error hotErr ∧ cold.BySlot slot = .ok e)) :=
  ⟨hotPriority_of_eq hot.ByStateRoot cold.ByStateRoot cold'.ByStateRoot
      (HotColdChain.ByStateRoot ⟨hot, cold⟩) (HotColdChain.ByStateRoot ⟨hot, cold'⟩)
      (fun _ => rfl) (fun _ => rfl),
   hotPriority_of_eq hot.ByBlockRoot cold.ByBlockRoot cold'.ByBlockRoot
      (HotColdChain.ByBlockRoot ⟨hot, cold⟩) (HotColdChain.ByBlockRoot ⟨hot, cold'⟩)
      (fun _ => rfl) (fun _ => rfl),
   hotPriority_of_eq (fun p : Root32 × Nat => hot.Closest p.1 p.2)
      (fun p => cold.Closest p.1 p.2) (fun p => cold'.Closest p.1 p.2)
      (fun p => HotColdChain.Closest ⟨hot, cold⟩ p.1 p.2)
      (fun p => HotColdChain.Closest ⟨hot, cold'⟩ p.1 p.2) (fun _ => rfl) (fun _ => rfl),
   hotPriority_of_eq hot.BySlot cold.BySlot cold'.BySlot
      (HotColdChain.BySlot ⟨hot, cold⟩) (HotColdChain.BySlot ⟨hot, cold'⟩)
      (fun _ => rfl) (fun _ => rfl)⟩

/-- Witness for C9: a state root served by the hot fixture is returned
unchanged even when the cold region is swapped for one that answers
every query. -/
theorem hotColdChain_hot_shadows_cold_witness :
    HotColdChain.ByStateRoot ⟨hotEx, coldEx⟩ (natRoot 13) = .ok entryB ∧
    HotColdChain.ByStateRoot ⟨hotEx, coldEx⟩ (natRoot 13) =
      HotColdChain.ByStateRoot ⟨hotEx, coldEx2⟩ (natRoot 13) :=
  (hotColdChain_hot_shadows_cold hotEx coldEx coldEx2).1.1 (natRoot 13) entryB (by decide)

/-- C8: the finalization sink installed by `NewHotColdChain` forwards a
canonical entry to the cold chain's `OnFinalizedEntry` and reports
success for a non-canonical entry without touching the cold chain's
state. -/
theorem hotColdFinalizationSink_canonical_only {HotEntry ColdSt : Type}
    (onFinalizedEntry : ColdSt → HotEntry → Except String ColdSt)
    (cold : ColdSt) (entry : HotEntry) :
    hotColdFinalizationSink onFinalizedEntry cold entry true = onFinalizedEntry cold entry ∧
    hotColdFinalizationSink onFinalizedEntry cold entry false = Except.ok cold :=
  ⟨rfl, rfl⟩

/-- Concrete cold-region iterator over slots 0 and 1. -/
def coldIterEx : ChainIter where
  Start := 0
  End := 2
  Entry s :=
    if s = 0 then .ok (some entryA)
    else if s = 1 then .ok (some entryAnchor)
    else .error "cold iter: out of range"

/-- Concrete hot-region iterator over slot 2. -/
def hotIterEx : ChainIter where
  Start := 2
  End := 3
  Entry s :=
    if s = 2 then .ok (some entryB)
    else .error "hot iter: out of range"

/-- Concrete stitched iterator over the two fixture iterators. -/
def fiEx : FullChainIter := ⟨hotIterEx, coldIterEx⟩

/-- C4: `FullChainIter` starts at the cold iterator's `Start`, ends at
the hot iterator's `End`, and `Entry` delegates to the cold iterator
strictly below the cold iterator's `End` and to the hot iterator at or
above it. -/
theorem fullChainIter_routing (fi : FullChainIter) (slot : Nat) :
    fi.Start = fi.ColdIter.Start ∧
    fi.End = fi.HotIter.End ∧
    (slot < fi.ColdIter.End → fi.Entry slot = fi.ColdIter.Entry slot) ∧
    (¬ slot < fi.ColdIter.End → fi.Entry slot = fi.HotIter.Entry slot) := by
  refine ⟨rfl, rfl, ?_, ?_⟩
  · intro h
    simp [FullChainIter.Entry, h]
  · intro h
    simp [FullChainIter.Entry, h]

/-- Witness for C4: delegation evaluated on the fixture iterators just
below and at the boundary. -/
theorem fullChainIter_routing_witness :
    fiEx.Entry 1 = coldIterEx.Entry 1 ∧ fiEx.Entry 2 = hotIterEx.Entry 2 :=
  ⟨(fullChainIter_routing fiEx 1).2.2.1 (by decide),
   (fullChainIter_routing fiEx 2).2.2.2 (by decide)⟩

/-- C5 counterexample: on the concrete chains, `rootA` is cold-only,
precedes the anchor and is an ancestor of the hot-only `rootB` (the
parent links run `entryB → entryAnchor → entryA`), yet the router's
`IsAncestor(rootA, rootB)` takes the cold-delegation branch — `rootA`
is resolvable in the cold chain, so the anchor-bridge branch cannot
fire — and does not return `(unknown = false, isAncestor = true)`. -/
theorem hotColdChain_anchor_bridge_claim_cex :
    (coldEx.ByBlockRoot rootA = Except.ok entryA ∧
     entryA.slot < entryAnchor.slot ∧
     hotEx.ByBlockRoot rootB = Except.ok entryB ∧
     coldEx.ByBlockRoot rootB = Except.error "cold: block root not found" ∧
     entryB.parentRoot = entryAnchor.blockRoot ∧
     entryAnchor.parentRoot = entryA.blockRoot) ∧
    hcEx.isAncestorBranch rootA rootB = AncestryBranch.coldDelegate ∧
    hcEx.isAncestorBranch rootA rootB ≠ AncestryBranch.anchorBridge ∧
    hcEx.IsAncestor rootA rootB ≠ (false, true) := by
  decide

/-- C5 (amended): with the arguments in the order the code expects —
the querying root builds on `ofRoot` — a hot-region-only root queried
against a cold-resolvable root is resolved via the anchor-bridge branch
and, when the hot root builds on the finalized anchor, yields
`isAncestor = true`. -/
theorem hotColdChain_anchor_bridge (hc : HotColdChain) (hotOnlyRoot coldOnlyRoot : Root32)
    (hne : hotOnlyRoot ≠ coldOnlyRoot)
    (err : String) (hmiss : hc.ColdChain.ByBlockRoot hotOnlyRoot = .error err)
    (eCold : ChainEntry) (hcold : hc.ColdChain.ByBlockRoot coldOnlyRoot = .ok eCold)
    (hanchor : hc.HotChain.IsAncestor hotOnlyRoot hc.HotChain.Finalized.Root = (false, true)) :
    hc.isAncestorBranch hotOnlyRoot coldOnlyRoot = AncestryBranch.anchorBridge ∧
    hc.IsAncestor hotOnlyRoot coldOnlyRoot = (false, true) := by
  constructor
  · simp [HotColdChain.isAncestorBranch, hne, hmiss, hcold]
  · simp [HotColdChain.IsAncestor, hne, hmiss, hcold, hanchor]

/-- Witness for the amended C5: `IsAncestor(rootB, rootA)` on the
concrete chains goes through the anchor bridge and returns true. -/
theorem hotColdChain_anchor_bridge_witness :
    hcEx.isAncestorBranch rootB rootA = AncestryBranch.anchorBridge ∧
    hcEx.IsAncestor rootB rootA = (false, true) :=
  hotColdChain_anchor_bridge hcEx rootB rootA (by decide)
    "cold: block root not found" (by decide) entryA (by decide) (by decide)

/-- Modelled from the spec: the router's `Towards` body is missing from
the source (`chain.go` lines 159-161 are an empty body); spec section
4.1 defines it: resolve `fromBlockRoot`, fail immediately when the
target slot is before that entry's slot, otherwise take `Closest` and,
if it stops short, advance empty slots up to `toSlot` through the
external state-transition collaborator `procSlots`. -/
def HotColdChain.Towards (hc : HotColdChain)
    (procSlots : ChainEntry → Nat → Except String ChainEntry)
    (fromBlockRoot : Root32) (toSlot : Nat) : Except String ChainEntry :=
  match hc.ByBlockRoot fromBlockRoot with
  | .error e => .error e
  | .ok fromEntry =>
    if toSlot < fromEntry.slot then
      .error "target slot is before the from-block-root entry"
    else
      match hc.Closest fromBlockRoot toSlot with
      | .error e => .error e
      | .ok closest =>
        if closest.slot < toSlot then procSlots closest toSlot else .ok closest

/-- C6: for a `fromBlockRoot` known to the router and a target slot
strictly below that entry's slot, `Towards` fails — for every possible
transition collaborator, so no backward transition is ever attempted. -/
theorem hotColdChain_towards_no_backward (hc : HotColdChain)
    (procSlots : ChainEntry → Nat → Except String ChainEntry)
    (fromBlockRoot : Root32) (toSlot : Nat) (fromEntry : ChainEntry)
    (hknown : hc.ByBlockRoot fromBlockRoot = .ok fromEntry)
    (hback : toSlot < fromEntry.slot) :
    hc.Towards procSlots fromBlockRoot toSlot =
      .error "target slot is before the from-block-root entry" := by
  simp [HotColdChain.Towards, hknown, hback]

/-- Witness for C6: on the concrete router, walking from `rootB`
(slot 2) towards slot 1 fails. -/
theorem hotColdChain_towards_no_backward_witness :
    hcEx.Towards (fun e _ => Except.ok e) rootB 1 =
      .error "target slot is before the from-block-root entry" :=
  hotColdChain_towards_no_backward hcEx (fun e _ => Except.ok e) rootB 1 entryB
    (by decide) (by decide)

/-- Modelled from the spec: one region's iterated content — a
contiguous run of entries, one per slot, starting at `start` (the hot
and cold chain internals behind `Iter()` are outside `chain.go`). -/
structure IterRegion where
  start : Nat
  entries : List ChainEntry

/-- The exclusive end slot of a region. -/
def IterRegion.endSlot (r : IterRegion) : Nat :=
  r.start + r.entries.length

/-- Modelled from the spec: the `ChainIter` produced over a contiguous
region — `Start` inclusive, `End` exclusive, `Entry` answering exactly
the in-range slots. -/
def IterRegion.toIter (r : IterRegion) : ChainIter where
  Start := r.start
  End := r.start + r.entries.length
  Entry s :=
    if r.start ≤ s ∧ s < r.start + r.entries.length then .ok r.entries[s - r.start]?
    else .error "iter: slot out of range"

/-- Modelled from the spec: the composed system's iterated state — the
cold region and the hot region. -/
structure ChainSystem where
  cold : IterRegion
  hot : IterRegion

/-- Modelled from the spec (section 3 lifecycle, section 4.5): a step of
the composed system — a new entry appended at the hot tip, or the
earliest hot entry finalized into the cold region (cold ingests it, hot
prunes it). -/
inductive SysStep : ChainSystem → ChainSystem → Prop where
  | extend (st : ChainSystem) (e : ChainEntry) :
      SysStep st ⟨st.cold, ⟨st.hot.start, st.hot.entries ++ [e]⟩⟩
  | finalize (st : ChainSystem) (e : ChainEntry) (rest : List ChainEntry)
      (h : st.hot.entries = e :: rest) :
      SysStep st ⟨⟨st.cold.start, st.cold.entries ++ [e]⟩, ⟨st.hot.start + 1, rest⟩⟩

/-- Modelled from the spec: reachable system states — constructed as in
`NewHotColdChain` (the cold region starts empty at the anchor's slot,
the hot region starts with the anchor entry) and closed under steps. -/
inductive SysReachable : ChainSystem → Prop where
  | init (anchor : ChainEntry) :
      SysReachable ⟨⟨anchor.slot, []⟩, ⟨anchor.slot, [anchor]⟩⟩
  | step {st st' : ChainSystem} : SysReachable st → SysStep st st' → SysReachable st'

theorem sysReachable_boundary {st : ChainSystem} (h : SysReachable st) :
    st.cold.endSlot = st.hot.start := by
  induction h with
  | init anchor => simp [IterRegion.endSlot]
  | step hr hs ih =>
    cases hs with
    | extend e => simpa [IterRegion.endSlot] using ih
    | finalize e rest hh =>
      simp only [IterRegion.endSlot, List.length_append, List.length_cons,
        List.length_nil] at ih ⊢
      omega

theorem iterRegion_entry_last (r : IterRegion) (hne : r.entries ≠ []) :
    r.toIter.Entry (r.endSlot - 1) = .ok r.entries.getLast? := by
  have hlen : 0 < r.entries.length := List.length_pos.mpr hne
  have hin : r.start ≤ r.endSlot - 1 ∧ r.endSlot - 1 < r.start + r.entries.length := by
    simp only [IterRegion.endSlot]
    omega
  simp only [IterRegion.toIter, IterRegion.endSlot] at hin ⊢
  rw [if_pos hin]
  have hidx : r.start + r.entries.length - 1 - r.start = r.entries.length - 1 := by omega
  rw [hidx, ← List.getLast?_eq_getElem?]

theorem iterRegion_entry_head (r : IterRegion) (hne : r.entries ≠ []) :
    r.toIter.Entry r.start = .ok r.entries.head? := by
  have hlen : 0 < r.entries.length := List.length_pos.mpr hne
  have hin : r.start ≤ r.start ∧ r.start < r.start + r.entries.length := by omega
  simp only [IterRegion.toIter]
  rw [if_pos hin]
  obtain ⟨e, rest, her⟩ := List.exists_cons_of_ne_nil hne
  rw [her]
  simp

/-- C3: in every reachable composed state the region boundary is gapless
and non-overlapping — the cold iterator's `End` equals the hot
iterator's `Start` — and the stitched `FullChainIter` answers the slot
just below the boundary with the last cold entry and the boundary slot
with the first hot entry. -/
theorem fullChainIter_boundary_invariant (st : ChainSystem) (hst : SysReachable st) :
    st.cold.toIter.End = st.hot.toIter.Start ∧
    (st.cold.entries ≠ [] →
      FullChainIter.Entry ⟨st.hot.toIter, st.cold.toIter⟩ (st.cold.toIter.End - 1) =
        .ok st.cold.entries.getLast?) ∧
    (st.hot.entries ≠ [] →
      FullChainIter.Entry ⟨st.hot.toIter, st.cold.toIter⟩ st.cold.toIter.End =
        .ok st.hot.entries.head?) := by
  have hb : st.cold.endSlot = st.hot.start := sysReachable_boundary hst
  have hcoldEnd : st.cold.toIter.End = st.cold.endSlot := rfl
  refine ⟨?_, ?_, ?_⟩
  · rw [hcoldEnd, hb]; rfl
  · intro hne
    have hlen : 0 < st.cold.entries.length := List.length_pos.mpr hne
    have hroute : st.cold.toIter.End - 1 < st.cold.toIter.End := by
      simp only [hcoldEnd, IterRegion.endSlot]
      omega
    rw [FullChainIter.Entry, if_pos hroute]
    exact iterRegion_entry_last st.cold hne
  · intro hne
    have hroute : ¬ st.cold.toIter.End < st.cold.toIter.End := lt_irrefl _
    rw [FullChainIter.Entry, if_neg hroute]
    have hstart : st.cold.toIter.End = st.hot.toIter.Start := by rw [hcoldEnd, hb]; rfl
    rw [hstart]
    exact iterRegion_entry_head st.hot hne

/-- Concrete reachable system: anchor finalized into the cold region,
one hot entry left. -/
def sysEx : ChainSystem := ⟨⟨1, [entryAnchor]⟩, ⟨2, [entryB]⟩⟩

theorem sysEx_reachable : SysReachable sysEx :=
  SysReachable.step
    (SysReachable.step (SysReachable.init entryAnchor) (SysStep.extend _ entryB))
    (SysStep.finalize _ entryAnchor [entryB] rfl)

/-- Witness for C3: the boundary invariant and both boundary entries
evaluated on the concrete reachable system. -/
theorem fullChainIter_boundary_invariant_witness :
    sysEx.cold.toIter.End = sysEx.hot.toIter.Start ∧
    FullChainIter.Entry ⟨sysEx.hot.toIter, sysEx.cold.toIter⟩ (sysEx.cold.toIter.End - 1) =
      .ok (some entryAnchor) ∧
    FullChainIter.Entry ⟨sysEx.hot.toIter, sysEx.cold.toIter⟩ sysEx.cold.toIter.End =
      .ok (some entryB) := by
  have h := fullChainIter_boundary_invariant sysEx sysEx_reachable
  refine ⟨h.1, ?_, ?_⟩
  · rw [h.2.1 (by simp [sysEx])]
    rfl
  · rw [h.2.2 (by simp [sysEx])]
    rfl

end ZrntChain
